import Mathlib

/-!
Verification of the OpenVINO CPU-plugin variable-state component
(`src/plugins/intel_cpu/src/memory_state.cpp`): the `VariableStateBase`
protocol and its three variants `VariableStateDoubleBuffer`,
`VariableStateSingleBuffer` and `VariableStateKVcache`.

Tensors are embedded at value level: a memory object is a flat buffer,
a total function from linear offsets to rational element values, together
with its dimensions.  Loop nests that store one value per disjoint slot
(`parallel_for3d` bodies, the beam-table fill loop) are embedded by their
sequential semantics: a list of (offset, value) pairs enumerated in program
order, folded over the buffer with pointwise update.
-/

/-- Sequential semantics of a loop nest that stores value `p.2` at linear
offset `p.1` of a flat buffer, for each pair of `ps` in program order. -/
def writeAll {α : Type} (ps : List (ℕ × α)) (f : ℕ → α) : ℕ → α :=
  ps.foldl (fun g p => Function.update g p.1 p.2) f

theorem writeAll_nil {α : Type} (f : ℕ → α) : writeAll [] f = f := rfl

theorem writeAll_cons {α : Type} (p : ℕ × α) (ps : List (ℕ × α)) (f : ℕ → α) :
    writeAll (p :: ps) f = writeAll ps (Function.update f p.1 p.2) := rfl

/-- If every write aimed at offset `i` carries the same value `v`, then after
the loop the buffer holds `v` at `i` when some write hit `i`, and its prior
content otherwise. -/
theorem writeAll_const_key {α : Type} (ps : List (ℕ × α)) (i : ℕ) (v : α)
    (h : ∀ p ∈ ps, p.1 = i → p.2 = v) (f : ℕ → α) :
    writeAll ps f i = if i ∈ ps.map Prod.fst then v else f i := by
  induction ps generalizing f with
  | nil => simp [writeAll]
  | cons q qs ih =>
    rw [writeAll_cons, ih (fun p hp => h p (List.mem_cons_of_mem q hp))]
    by_cases hmem : i ∈ qs.map Prod.fst
    · simp [hmem]
    · by_cases hqi : q.1 = i
      · have hv : q.2 = v := h q (List.mem_cons_self q qs) hqi
        simp [hmem, hqi, hv, Function.update]
      · simp [hmem, Function.update, Ne.symm hqi, hqi]

/-- A slot that some write hits, all writes to it agreeing on the value,
holds that value after the loop. -/
theorem writeAll_eq_of_mem {α : Type} (ps : List (ℕ × α)) (i : ℕ) (v : α)
    (f : ℕ → α) (hmem : (i, v) ∈ ps) (huniq : ∀ p ∈ ps, p.1 = i → p.2 = v) :
    writeAll ps f i = v := by
  rw [writeAll_const_key ps i v huniq f]
  have hk : i ∈ ps.map Prod.fst := List.mem_map.mpr ⟨(i, v), hmem, rfl⟩
  simp [hk]

/-- A slot no write hits keeps its prior content. -/
theorem writeAll_not_mem {α : Type} (ps : List (ℕ × α)) (i : ℕ) (f : ℕ → α)
    (hmem : ∀ p ∈ ps, p.1 ≠ i) :
    writeAll ps f i = f i := by
  rw [writeAll_const_key ps i (f i) (fun p hp hpi => absurd hpi (hmem p hp)) f]
  have hk : i ∉ ps.map Prod.fst := by
    intro hc
    obtain ⟨p, hp, he⟩ := List.mem_map.mp hc
    exact hmem p hp he
  simp [hk]

/-- Mixed-radix decomposition step: with the low digit below the radix `D`,
equal offsets have equal digit and equal carry. -/
theorem mixed_radix_step (D a s b t : ℕ) (hs : s < D) (ht : t < D)
    (h : a * D + s = b * D + t) : a = b ∧ s = t := by
  have h1 : (a * D + s) % D = s := by
    rw [Nat.add_comm, Nat.add_mul_mod_self_right]
    exact Nat.mod_eq_of_lt hs
  have h2 : (b * D + t) % D = t := by
    rw [Nat.add_comm, Nat.add_mul_mod_self_right]
    exact Nat.mod_eq_of_lt ht
  have hst : s = t := by rw [← h1, ← h2, h]
  refine ⟨?_, hst⟩
  have hD : 0 < D := lt_of_le_of_lt (Nat.zero_le s) hs
  subst hst
  have hab : a * D = b * D := Nat.add_right_cancel h
  exact Nat.eq_of_mul_eq_mul_right hD hab

/-- Linear offset of element `(m, b, k, s)` of a dense rank-4 tensor whose
trailing dimension extents are `B`, `H`, `S` (the `PlainTensor` offset
arithmetic for internal-order `[L, B, H, S]` storage, with `S` innermost
and unit-stride). -/
def lindex (B H S m b k s : ℕ) : ℕ := ((m * B + b) * H + k) * S + s

theorem lindex_inj (B H S m b k s m2 b2 k2 s2 : ℕ)
    (hb : b < B) (hk : k < H) (hs : s < S)
    (hb2 : b2 < B) (hk2 : k2 < H) (hs2 : s2 < S)
    (h : lindex B H S m b k s = lindex B H S m2 b2 k2 s2) :
    m = m2 ∧ b = b2 ∧ k = k2 ∧ s = s2 := by
  unfold lindex at h
  obtain ⟨hA, hS⟩ := mixed_radix_step S _ s _ s2 hs hs2 h
  obtain ⟨hB, hK⟩ := mixed_radix_step H _ k _ k2 hk hk2 hA
  obtain ⟨hM, hB2⟩ := mixed_radix_step B _ b _ b2 hb hb2 hB
  exact ⟨hM, hB2, hK, hS⟩

/-- Write set of a three-level loop nest over `(m, b, k) ∈ L × B × H` whose
body stores the `S` elements `val m b k s` into row `(m, b, k)` of a dense
rank-4 `[L, B, H, S]` buffer: the iteration space of `parallel_for3d(L0, B, H)`
together with the per-row copy, enumerated in sequential order. -/
def rowWrites (α : Type) (L B H S : ℕ) (val : ℕ → ℕ → ℕ → ℕ → α) : List (ℕ × α) :=
  (List.range L).flatMap fun m =>
    (List.range B).flatMap fun b =>
      (List.range H).flatMap fun k =>
        (List.range S).map fun s => (lindex B H S m b k s, val m b k s)

theorem rowWrites_mem {α : Type} (L B H S : ℕ) (val : ℕ → ℕ → ℕ → ℕ → α)
    (p : ℕ × α) (hp : p ∈ rowWrites α L B H S val) :
    ∃ m b k s, m < L ∧ b < B ∧ k < H ∧ s < S ∧
      p = (lindex B H S m b k s, val m b k s) := by
  simp only [rowWrites, List.mem_flatMap, List.mem_map, List.mem_range] at hp
  obtain ⟨m, hm, b, hb, k, hk, s, hs, he⟩ := hp
  exact ⟨m, b, k, s, hm, hb, hk, hs, he.symm⟩

/-- Evaluating the buffer produced by a `rowWrites` loop at an in-range
offset returns the value the body stored there. -/
theorem rowWrites_apply {α : Type} (L B H S : ℕ) (val : ℕ → ℕ → ℕ → ℕ → α)
    (f : ℕ → α) (m b k s : ℕ)
    (hm : m < L) (hb : b < B) (hk : k < H) (hs : s < S) :
    writeAll (rowWrites α L B H S val) f (lindex B H S m b k s) = val m b k s := by
  apply writeAll_eq_of_mem
  · simp only [rowWrites, List.mem_flatMap, List.mem_map, List.mem_range]
    exact ⟨m, hm, b, hb, k, hk, s, hs, rfl⟩
  · intro p hp hkey
    obtain ⟨m2, b2, k2, s2, hm2, hb2, hk2, hs2, he⟩ := rowWrites_mem L B H S val p hp
    subst he
    obtain ⟨e1, e2, e3, e4⟩ :=
      lindex_inj B H S m2 b2 k2 s2 m b k s hb2 hk2 hs2 hb hk hs hkey
    subst e1; subst e2; subst e3; subst e4
    rfl

/-- Write set of the beam-table fill loop of `set_state_impl`:
`for i < size_B: for j < size_L: buff[i * size_L + j] = i`. -/
def beamIdentityWrites (size_B size_L : ℕ) : List (ℕ × ℤ) :=
  (List.range size_B).flatMap fun i =>
    (List.range size_L).map fun j => (i * size_L + j, (i : ℤ))

/-- The int32 beam-table buffer after the fill loop, starting from a freshly
allocated buffer (initial contents modelled as 0). -/
def beam_table_fill (size_B size_L : ℕ) : ℕ → ℤ :=
  writeAll (beamIdentityWrites size_B size_L) fun _ => 0

theorem beam_table_fill_apply (size_B size_L b l : ℕ)
    (hb : b < size_B) (hl : l < size_L) :
    beam_table_fill size_B size_L (b * size_L + l) = (b : ℤ) := by
  apply writeAll_eq_of_mem
  · simp only [beamIdentityWrites, List.mem_flatMap, List.mem_map, List.mem_range]
    exact ⟨b, hb, l, hl, rfl⟩
  · intro p hp hkey
    simp only [beamIdentityWrites, List.mem_flatMap, List.mem_map, List.mem_range] at hp
    obtain ⟨i, hi, j, hj, he⟩ := hp
    rw [← he] at hkey ⊢
    obtain ⟨e1, _⟩ := mixed_radix_step size_L i j b l hj hl hkey
    simp [e1]

/-- Stored internal KV tensor of `VariableStateKVcache` (`m_internal_mem`):
dimensions in internal order `[L, B, H, S]`, the element precision restricted
to what `get_state` dispatches on (`u8` quantized storage or not), and the
flat buffer of element values — u8 codes for quantized storage, plain field
values otherwise, both as rationals. -/
structure KVStored where
  L : ℕ
  B : ℕ
  H : ℕ
  S : ℕ
  precIsU8 : Bool
  raw : ℕ → ℚ

/-- The beam table (`m_hidden_state`): an int32 matrix of shape
`[size_B, size_L]` stored row-major in a flat buffer. -/
structure BeamTable where
  sizeB : ℕ
  sizeL : ℕ
  buf : ℕ → ℤ

/-- Element access `beam_table.at<int32_t>({b, m})` on the `[B, L]`
row-major beam table. -/
def BeamTable.at2 (bt : BeamTable) (b m : ℕ) : ℤ := bt.buf (b * bt.sizeL + m)

/-- The `VariableStateKVcache` state object.  The external descriptor is a
shape whose entries are either a concrete extent or `none` (dynamic); the
precision of the dense internal descriptor is abstracted to the one bit
`get_state`/`set_state` dispatch on. -/
structure VariableStateKVcache where
  external_dims : List (Option ℕ)
  internal_prec_u8 : Bool
  m_quant_by_channel : Bool
  m_group_size : ℕ
  m_internal_mem : Option KVStored
  m_hidden_state : Option BeamTable
  m_scale_zp_dims : List ℕ
  m_scale_zp : ℕ → ℚ
  m_internal_mem_max_size : ℕ
  m_hidden_state_max_size : ℕ
  reset_state_flag : Bool

/-- `VariableStateBase::to_static`: replace every undefined (dynamic)
dimension of a descriptor shape with 0. -/
def to_static (dims : List (Option ℕ)) : List ℕ := dims.map fun d => d.getD 0

/-- `Shape::isDynamic`: a shape is dynamic when some dimension is undefined. -/
def shape_is_dynamic (dims : List (Option ℕ)) : Bool :=
  dims.any fun d => d = none

/-- Modelled from the spec: affine dequantization performed by
`attn_dequant_u8` / `attn_dequant_by_channel_u8` (kernels under
`nodes/kernels/scaled_attn`, not part of this source file):
`value = (stored_u8 - zero_point) * scale`. -/
def attn_dequant_val (scale zp code : ℚ) : ℚ := (code - zp) * scale

/-- Modelled from the spec: the maximum of a float chunk, used by the
affine quantization kernels (not part of this source file) to derive the
group value range. -/
def chunk_max (xs : List ℚ) : ℚ := xs.foldl max (xs.headD 0)

/-- Modelled from the spec: the minimum of a float chunk. -/
def chunk_min (xs : List ℚ) : ℚ := xs.foldl min (xs.headD 0)

/-- Modelled from the spec: the scale of one quantization group — the chunk
value range spread over the 255 representable u8 steps. -/
def quant_scale (xs : List ℚ) : ℚ := (chunk_max xs - chunk_min xs) / 255

/-- Modelled from the spec: the zero point of one quantization group. -/
def quant_zp (xs : List ℚ) : ℚ :=
  if quant_scale xs = 0 then 0 else -chunk_min xs / quant_scale xs

/-- Modelled from the spec: the u8 code a group member quantizes to, such
that `(code - zero_point) * scale` recovers the value. -/
def quant_code (xs : List ℚ) (x : ℚ) : ℚ :=
  if quant_scale xs = 0 then 0 else x / quant_scale xs + quant_zp xs

/-- Element stored into the `get_state` output row `(m, b, k)` at lane `s`
by the unquantized branch: resolve `b_kv = beam_table.at({b, m})` and read
the physically stored element `(m, b_kv, k, s)` (`cpu_convert` row copy). -/
def kv_get_plain_val (pastkv : KVStored) (bt : BeamTable) (m b k s : ℕ) : ℚ :=
  pastkv.raw (lindex pastkv.B pastkv.H pastkv.S m ((bt.at2 b m).toNat) k s)

/-- Scratch float buffer filled by the by-group dequantization loop of
`get_state` for output row `(m, b, k)`: each group `g < S / group_size`
dequantizes `group_size` consecutive lanes starting at `g * group_size`,
using the (scale, zero-point) pair at `(m, b_kv, k, 2 g)` / `(…, 2 g + 1)`
of the `[L, B, H, 2 * S / group_size]` scale table.  Lanes at offset
`≥ (S / group_size) * group_size` are never written and keep the scratch
buffer initial contents, modelled as 0. -/
def kv_dequant_row (st : VariableStateKVcache) (pastkv : KVStored)
    (bt : BeamTable) (m b k : ℕ) : ℕ → ℚ :=
  let S := pastkv.S
  let gs := st.m_group_size
  let b_kv := (bt.at2 b m).toNat
  let szpD := 2 * S / gs
  writeAll
    ((List.range (S / gs)).flatMap fun g =>
      (List.range gs).map fun i =>
        (g * gs + i,
         attn_dequant_val
           (st.m_scale_zp (lindex pastkv.B pastkv.H szpD m b_kv k (g * 2)))
           (st.m_scale_zp (lindex pastkv.B pastkv.H szpD m b_kv k (g * 2 + 1)))
           (pastkv.raw (lindex pastkv.B pastkv.H S m b_kv k (g * gs + i)))))
    fun _ => 0

/-- Element stored into the `get_state` output row `(m, b, k)` at lane `s`
by the by-channel dequantization branch: group `m / group_size` along the
length dimension, (scale, zero-point) at rows `2 g` / `2 g + 1` of the
`[2 * groups, B, H, S]` scale table, read at batch `b_kv`. -/
def kv_get_by_channel_val (st : VariableStateKVcache) (pastkv : KVStored)
    (bt : BeamTable) (m b k s : ℕ) : ℚ :=
  let g := m / st.m_group_size
  let b_kv := (bt.at2 b m).toNat
  attn_dequant_val
    (st.m_scale_zp (lindex pastkv.B pastkv.H pastkv.S (g * 2) b_kv k s))
    (st.m_scale_zp (lindex pastkv.B pastkv.H pastkv.S (g * 2 + 1) b_kv k s))
    (pastkv.raw (lindex pastkv.B pastkv.H pastkv.S m b_kv k s))

/-- The flat output buffer produced by the non-empty branch of
`VariableStateKVcache::get_state`, dispatching exactly as the source does on
the stored precision and the quantization mode, each branch a
`parallel_for3d(L0, B, H)` loop filling disjoint output rows (embedded by
its sequential write list).  The output memory is freshly allocated; its
initial contents are modelled as 0. -/
def kv_get_buf (st : VariableStateKVcache) (pastkv : KVStored)
    (bt : BeamTable) : ℕ → ℚ :=
  if pastkv.precIsU8 then
    if st.m_quant_by_channel then
      writeAll
        (rowWrites ℚ pastkv.L pastkv.B pastkv.H pastkv.S
          (kv_get_by_channel_val st pastkv bt))
        fun _ => 0
    else
      writeAll
        (rowWrites ℚ pastkv.L pastkv.B pastkv.H pastkv.S
          (fun m b k s => kv_dequant_row st pastkv bt m b k s))
        fun _ => 0
  else
    writeAll
      (rowWrites ℚ pastkv.L pastkv.B pastkv.H pastkv.S
        (kv_get_plain_val pastkv bt))
      fun _ => 0

/-- Result of `VariableStateKVcache::get_state`: either the empty tensor
shaped by the static form of the external descriptor (a fresh allocation,
no copy from history), or a full tensor with internal-order dimensions
`[L, B, H, S]` and a flat value buffer. -/
inductive KVGetResult where
  | empty (dims : List ℕ)
  | full (L B H S : ℕ) (buf : ℕ → ℚ)

/-- `VariableStateKVcache::get_state`: if no internal buffer is allocated,
or no beam-table buffer is assigned, or the reset flag is set, return an
empty tensor shaped by the static form of the external descriptor;
otherwise reorder/dequantize the stored history through the beam table. -/
def VariableStateKVcache.get_state (st : VariableStateKVcache) : KVGetResult :=
  match st.m_internal_mem, st.m_hidden_state with
  | some pastkv, some bt =>
    if st.reset_state_flag then KVGetResult.empty (to_static st.external_dims)
    else KVGetResult.full pastkv.L pastkv.B pastkv.H pastkv.S (kv_get_buf st pastkv bt)
  | _, _ => KVGetResult.empty (to_static st.external_dims)

/-- The caller-supplied state tensor of `set_state`, viewed through the
internal-order permutation (`external.permute(actual_internal_order)`):
dimensions `[L, B, H, S]` in internal order and an element accessor. -/
structure InputTensor where
  L : ℕ
  B : ℕ
  H : ℕ
  S : ℕ
  at4 : ℕ → ℕ → ℕ → ℕ → ℚ

/-- `div_up` from `utils/general_utils.h`: ceiling division. -/
def div_up (a b : ℕ) : ℕ := (a + b - 1) / b

/-- The float chunk handed to `attn_quant_u8` for group `g` of row
`(m, b, k)` in the by-group branch: the `group_size` lanes starting at
lane `off`. -/
def group_chunk (T : InputTensor) (m b k off gs : ℕ) : List ℚ :=
  (List.range gs).map fun i => T.at4 m b k (off + i)

/-- Write set of the by-group quantization loop of `set_state_impl` into the
internal u8 buffer: `parallel_for3d(B, H, L0)`, each row quantizing groups
`g < S / group_size` of `group_size` lanes starting at `g * group_size`. -/
def by_group_code_writes (T : InputTensor) (gs : ℕ) : List (ℕ × ℚ) :=
  (List.range T.B).flatMap fun b =>
    (List.range T.H).flatMap fun k =>
      (List.range T.L).flatMap fun m =>
        (List.range (T.S / gs)).flatMap fun g =>
          (List.range gs).map fun i =>
            (lindex T.B T.H T.S m b k (g * gs + i),
             quant_code (group_chunk T m b k (g * gs) gs) (T.at4 m b k (g * gs + i)))

/-- Write set of the by-group quantization loop into the
`[L0, B, H, 2 * S / group_size]` scale/zero-point table: group `g` stores
its scale at lane `2 g` and its zero point at lane `2 g + 1`. -/
def by_group_szp_writes (T : InputTensor) (gs : ℕ) : List (ℕ × ℚ) :=
  (List.range T.B).flatMap fun b =>
    (List.range T.H).flatMap fun k =>
      (List.range T.L).flatMap fun m =>
        (List.range (T.S / gs)).flatMap fun g =>
          [(lindex T.B T.H (2 * T.S / gs) m b k (g * 2),
            quant_scale (group_chunk T m b k (g * gs) gs)),
           (lindex T.B T.H (2 * T.S / gs) m b k (g * 2 + 1),
            quant_zp (group_chunk T m b k (g * gs) gs))]

/-- The length offset at which the by-channel branch of `set_state_impl`
reads the float chunk of group `g`: the source passes
`external.ptr_v(valid_seq, b, h)` to `cpu_convert`, so the chunk starts at
step `valid_seq = min(group_size, L0 - group_id * group_size)`. -/
def by_channel_read_start (gs L0 g : ℕ) : ℕ := min gs (L0 - g * gs)

/-- Modelled from the spec: the length offset at which the spec says the
by-channel chunk of group `g` starts — step `group_id * group_size`, matching
where the quantized codes of the group are stored. -/
def spec_by_channel_read_start (gs L0 g : ℕ) : ℕ := g * gs

/-- The float column handed to the by-channel quantization kernel for output
lane `s` of group rows `start ≤ m < start + vseq` at `(b, k)`. -/
def by_channel_column (T : InputTensor) (start vseq b k s : ℕ) : List ℚ :=
  (List.range vseq).map fun i => T.at4 (start + i) b k s

/-- Write set of the by-channel quantization loop of `set_state_impl` into
the internal u8 buffer: `parallel_for3d(group_nums, B, H)` with
`group_nums = div_up(L0, group_size)`; group `g` stores `valid_seq` rows of
codes starting at internal row `g * group_size`, the quantized float chunk
being read starting at step `by_channel_read_start` (the source as written;
see `spec_by_channel_read_start` for the prescribed offset). -/
def by_channel_code_writes (T : InputTensor) (gs : ℕ) : List (ℕ × ℚ) :=
  (List.range (div_up T.L gs)).flatMap fun g =>
    (List.range T.B).flatMap fun b =>
      (List.range T.H).flatMap fun k =>
        (List.range (min gs (T.L - g * gs))).flatMap fun i =>
          (List.range T.S).map fun s =>
            (lindex T.B T.H T.S (g * gs + i) b k s,
             quant_code
               (by_channel_column T (by_channel_read_start gs T.L g)
                 (min gs (T.L - g * gs)) b k s)
               (T.at4 (by_channel_read_start gs T.L g + i) b k s))

/-- Write set of the by-channel quantization loop into the
`[2 * group_nums, B, H, S]` scale/zero-point table: group `g` stores its
per-lane scale at table row `2 g` and its per-lane zero point at table row
`2 g + 1`. -/
def by_channel_szp_writes (T : InputTensor) (gs : ℕ) : List (ℕ × ℚ) :=
  (List.range (div_up T.L gs)).flatMap fun g =>
    (List.range T.B).flatMap fun b =>
      (List.range T.H).flatMap fun k =>
        (List.range T.S).flatMap fun s =>
          [(lindex T.B T.H T.S (g * 2) b k s,
            quant_scale
              (by_channel_column T (by_channel_read_start gs T.L g)
                (min gs (T.L - g * gs)) b k s)),
           (lindex T.B T.H T.S (g * 2 + 1) b k s,
            quant_zp
              (by_channel_column T (by_channel_read_start gs T.L g)
                (min gs (T.L - g * gs)) b k s))]

/-- `VariableStateKVcache::set_state_impl`: allocate a fresh internal buffer
sized to the input (initial contents modelled as 0), fill it by the branch
selected by the internal precision and the quantization mode, resize and
fill the scale/zero-point table in the quantized branches, reset the beam
table to the identity mapping sized `[B, L]`, and record the two capacity
high-water marks. -/
def VariableStateKVcache.set_state_impl (st : VariableStateKVcache)
    (T : InputTensor) : VariableStateKVcache :=
  let gs := st.m_group_size
  let stored : KVStored :=
    if st.internal_prec_u8 then
      if st.m_quant_by_channel then
        ⟨T.L, T.B, T.H, T.S, true, writeAll (by_channel_code_writes T gs) fun _ => 0⟩
      else
        ⟨T.L, T.B, T.H, T.S, true, writeAll (by_group_code_writes T gs) fun _ => 0⟩
    else
      ⟨T.L, T.B, T.H, T.S, false, writeAll (rowWrites ℚ T.L T.B T.H T.S T.at4) fun _ => 0⟩
  let szp_dims : List ℕ :=
    if st.internal_prec_u8 then
      if st.m_quant_by_channel then [div_up T.L gs * 2, T.B, T.H, T.S]
      else [T.L, T.B, T.H, 2 * T.S / gs]
    else st.m_scale_zp_dims
  let szp : ℕ → ℚ :=
    if st.internal_prec_u8 then
      if st.m_quant_by_channel then writeAll (by_channel_szp_writes T gs) fun _ => 0
      else writeAll (by_group_szp_writes T gs) fun _ => 0
    else st.m_scale_zp
  { st with
    m_internal_mem := some stored
    m_scale_zp_dims := szp_dims
    m_scale_zp := szp
    m_hidden_state := some ⟨T.B, T.L, beam_table_fill T.B T.L⟩
    m_internal_mem_max_size := T.L * T.B * T.H * T.S
    m_hidden_state_max_size := T.B * T.L }

/-- `VariableStateBase::set_state` on a KVCache state: run the variant
implementation, then clear the reset flag. -/
def VariableStateKVcache.set_state (st : VariableStateKVcache)
    (T : InputTensor) : VariableStateKVcache :=
  { st.set_state_impl T with reset_state_flag := false }

/-- The `VariableStateKVcache` constructor: fails (`OPENVINO_ASSERT`) unless
the external descriptor shape is dynamic.  A fresh state has no internal
buffer and no beam table; per the spec lifecycle it starts as a reset
state. -/
def VariableStateKVcache.construct (external_dims : List (Option ℕ))
    (prec_u8 quant_by_channel : Bool) (group_size : ℕ) :
    Except String VariableStateKVcache :=
  if shape_is_dynamic external_dims then
    Except.ok
      { external_dims := external_dims
        internal_prec_u8 := prec_u8
        m_quant_by_channel := quant_by_channel
        m_group_size := group_size
        m_internal_mem := none
        m_hidden_state := none
        m_scale_zp_dims := []
        m_scale_zp := fun _ => 0
        m_internal_mem_max_size := 0
        m_hidden_state_max_size := 0
        reset_state_flag := true }
  else
    Except.error "VariableStateKVcache is unexpectedly initalized with a static tensor"

/-- Whether an `Except`-valued construction succeeded. -/
def construct_ok (e : Except String VariableStateKVcache) : Bool :=
  match e with
  | Except.ok _ => true
  | Except.error _ => false

/-- `VariableStateKVcache::reset_impl`: nothing to do. -/
def VariableStateKVcache.reset_impl (st : VariableStateKVcache) :
    VariableStateKVcache := st

/-- `VariableStateKVcache::commit_impl`: nothing to do. -/
def VariableStateKVcache.commit_impl (st : VariableStateKVcache) :
    VariableStateKVcache := st

/-- `VariableStateBase::reset` on a KVCache state: run the variant
implementation, then set the reset flag. -/
def VariableStateKVcache.reset (st : VariableStateKVcache) :
    VariableStateKVcache :=
  { st.reset_impl with reset_state_flag := true }

/-- `VariableStateBase::commit` on a KVCache state: run the variant
implementation, then clear the reset flag. -/
def VariableStateKVcache.commit (st : VariableStateKVcache) :
    VariableStateKVcache :=
  { st.commit_impl with reset_state_flag := false }

/-- `VariableStateBase::is_reset_state`. -/
def VariableStateKVcache.is_reset_state (st : VariableStateKVcache) : Bool :=
  st.reset_state_flag

/-- One `Memory` object at value level: an element precision tag, static
dimensions, and the flat buffer of element values. -/
structure MemObj where
  prec : ℕ
  dims : List ℕ
  vals : ℕ → ℚ

/-- Modelled from the spec: `cpu_convert` (under `nodes/common`, not part of
this source file) casts elements between precisions; at this value-level
abstraction a precision cast is value-preserving, which is exactly the
"after any precision/layout normalization" clause of the round-trip
contract. -/
def cpu_convert_val (src_prec dst_prec : ℕ) (v : ℚ) : ℚ := v

/-- `VariableStateBase::set_state_impl` effect on the targeted input buffer:
redefine its descriptor to the shape of the supplied tensor and load the
tensor into it, converting to the internal precision. -/
def base_load_input (internal_prec : ℕ) (T : MemObj) : MemObj :=
  { prec := internal_prec
    dims := T.dims
    vals := fun i => cpu_convert_val T.prec internal_prec (T.vals i) }

/-- `VariableStateBase::get_state`: resolve the external descriptor with the
current dims of the internal state memory; return a zero-copy view when the
descriptors are compatible, otherwise convert the precision (or perform a
full reorder, which at value level also preserves every element value). -/
def base_get_state (ext_prec : ℕ) (M : MemObj) : MemObj :=
  if ext_prec = M.prec then M
  else
    { prec := ext_prec
      dims := M.dims
      vals := fun i => cpu_convert_val M.prec ext_prec (M.vals i) }

/-- The `VariableStateDoubleBuffer` state object: two buffers and the 1-bit
role index `buffer_num`; `prime` is the input/state buffer, `second` the
output buffer. -/
structure VariableStateDoubleBuffer where
  m_internal_mem : Bool → MemObj
  buffer_num : Bool
  internal_prec : ℕ
  external_prec : ℕ
  reset_state_flag : Bool

/-- Modelled from the spec: the `prime_mem` accessor (defined in
`memory_state.h`, not part of this source file) returns
`m_internal_mem[buffer_num]`. -/
def VariableStateDoubleBuffer.prime_mem (st : VariableStateDoubleBuffer) :
    MemObj := st.m_internal_mem st.buffer_num

/-- Modelled from the spec: the `second_mem` accessor returns
`m_internal_mem[buffer_num ^ 1]`. -/
def VariableStateDoubleBuffer.second_mem (st : VariableStateDoubleBuffer) :
    MemObj := st.m_internal_mem (!st.buffer_num)

/-- `set_state` on a DoubleBuffer state: `input_mem()` is the prime buffer;
load the supplied tensor into it and clear the reset flag. -/
def VariableStateDoubleBuffer.set_state (st : VariableStateDoubleBuffer)
    (T : MemObj) : VariableStateDoubleBuffer :=
  { st with
    m_internal_mem := fun i =>
      if i = st.buffer_num then base_load_input st.internal_prec T
      else st.m_internal_mem i
    reset_state_flag := false }

/-- `get_state` on a DoubleBuffer state: `internal_state_mem()` is the prime
buffer. -/
def VariableStateDoubleBuffer.get_state (st : VariableStateDoubleBuffer) :
    MemObj :=
  base_get_state st.external_prec st.prime_mem

/-- `VariableStateDoubleBuffer::commit_impl` toggles the role index
(`buffer_num ^= 0x01`); the base `commit` then clears the reset flag. -/
def VariableStateDoubleBuffer.commit (st : VariableStateDoubleBuffer) :
    VariableStateDoubleBuffer :=
  { st with buffer_num := !st.buffer_num, reset_state_flag := false }

/-- `VariableStateBase::is_reset_state`. -/
def VariableStateDoubleBuffer.is_reset_state
    (st : VariableStateDoubleBuffer) : Bool := st.reset_state_flag

/-- The `VariableStateSingleBuffer` state object: one buffer serving as both
input and output target. -/
structure VariableStateSingleBuffer where
  m_internal_mem : MemObj
  internal_prec : ℕ
  external_prec : ℕ
  reset_state_flag : Bool

/-- `set_state` on a SingleBuffer state: load into the single buffer and
clear the reset flag. -/
def VariableStateSingleBuffer.set_state (st : VariableStateSingleBuffer)
    (T : MemObj) : VariableStateSingleBuffer :=
  { st with
    m_internal_mem := base_load_input st.internal_prec T
    reset_state_flag := false }

/-- `get_state` on a SingleBuffer state. -/
def VariableStateSingleBuffer.get_state (st : VariableStateSingleBuffer) :
    MemObj :=
  base_get_state st.external_prec st.m_internal_mem

/-- `VariableStateSingleBuffer::commit_impl` does nothing; the base `commit`
clears the reset flag. -/
def VariableStateSingleBuffer.commit (st : VariableStateSingleBuffer) :
    VariableStateSingleBuffer :=
  { st with reset_state_flag := false }

/-- `VariableStateBase::is_reset_state`. -/
def VariableStateSingleBuffer.is_reset_state
    (st : VariableStateSingleBuffer) : Bool := st.reset_state_flag

/-- Sending a tensor through the base input load followed by the base
`get_state` conversion returns the original dimensions and element values,
whichever branch (zero-copy view, precision cast, reorder) is taken. -/
theorem base_get_state_load (pe pi : ℕ) (T : MemObj) :
    (base_get_state pe (base_load_input pi T)).dims = T.dims ∧
    ∀ i, (base_get_state pe (base_load_input pi T)).vals i = T.vals i := by
  unfold base_get_state base_load_input cpu_convert_val
  by_cases h : pe = pi <;> simp [h]

/-- C5: Round-trip — for every DoubleBuffer or SingleBuffer state and every
tensor compatible with the external descriptor, `set_state(T)` followed by
`get_state()` returns a tensor whose value equals `T` after any
precision/layout normalization (precision casts are value-preserving at
this abstraction). -/
theorem buffer_states_round_trip (db : VariableStateDoubleBuffer)
    (sb : VariableStateSingleBuffer) (T : MemObj) :
    ((db.set_state T).get_state.dims = T.dims ∧
      ∀ i, (db.set_state T).get_state.vals i = T.vals i) ∧
    ((sb.set_state T).get_state.dims = T.dims ∧
      ∀ i, (sb.set_state T).get_state.vals i = T.vals i) := by
  constructor
  · have h := base_get_state_load db.external_prec db.internal_prec T
    simpa [VariableStateDoubleBuffer.get_state, VariableStateDoubleBuffer.set_state,
      VariableStateDoubleBuffer.prime_mem] using h
  · have h := base_get_state_load sb.external_prec sb.internal_prec T
    simpa [VariableStateSingleBuffer.get_state,
      VariableStateSingleBuffer.set_state] using h

/-- C6: Constructing a KVCache state succeeds exactly when the external
descriptor shape is dynamic; with a fully static shape the constructor
fails with the construction error. -/
theorem kvcache_construction_requires_dynamic_shape
    (ext : List (Option ℕ)) (p q : Bool) (gs : ℕ) :
    construct_ok (VariableStateKVcache.construct ext p q gs) = shape_is_dynamic ext ∧
    (shape_is_dynamic ext = false →
      VariableStateKVcache.construct ext p q gs =
        Except.error
          "VariableStateKVcache is unexpectedly initalized with a static tensor") := by
  unfold VariableStateKVcache.construct
  cases h : shape_is_dynamic ext <;> simp [h, construct_ok]

/-- Witness for C6 at the concrete fully static shape `[3, 2]`. -/
theorem kvcache_construction_static_fails :
    VariableStateKVcache.construct [some 3, some 2] false false 0 =
      Except.error
        "VariableStateKVcache is unexpectedly initalized with a static tensor" :=
  (kvcache_construction_requires_dynamic_shape [some 3, some 2] false false 0).2 rfl

/-- C7: `reset()` and `commit()` on a KVCache state leave the internal cache
buffer, the beam table and the scale/zero-point table unchanged (the
variant-specific `reset_impl`/`commit_impl` do nothing); the only change is
to the reset flag, set by `reset()` and cleared by `commit()`. -/
theorem kv_reset_commit_frame (st : VariableStateKVcache) :
    st.reset.m_internal_mem = st.m_internal_mem ∧
    st.reset.m_hidden_state = st.m_hidden_state ∧
    st.reset.m_scale_zp = st.m_scale_zp ∧
    st.reset.m_scale_zp_dims = st.m_scale_zp_dims ∧
    st.reset.m_internal_mem_max_size = st.m_internal_mem_max_size ∧
    st.reset.m_hidden_state_max_size = st.m_hidden_state_max_size ∧
    st.reset.reset_state_flag = true ∧
    st.commit.m_internal_mem = st.m_internal_mem ∧
    st.commit.m_hidden_state = st.m_hidden_state ∧
    st.commit.m_scale_zp = st.m_scale_zp ∧
    st.commit.m_scale_zp_dims = st.m_scale_zp_dims ∧
    st.commit.m_internal_mem_max_size = st.m_internal_mem_max_size ∧
    st.commit.m_hidden_state_max_size = st.m_hidden_state_max_size ∧
    st.commit.reset_state_flag = false :=
  ⟨rfl, rfl, rfl, rfl, rfl, rfl, rfl, rfl, rfl, rfl, rfl, rfl, rfl, rfl⟩

/-- C8: after `commit()` returns, `is_reset_state()` is false, for every
variant and every prior flag value. -/
theorem commit_clears_reset_flag (db : VariableStateDoubleBuffer)
    (sb : VariableStateSingleBuffer) (kv : VariableStateKVcache) :
    db.commit.is_reset_state = false ∧
    sb.commit.is_reset_state = false ∧
    kv.commit.is_reset_state = false :=
  ⟨rfl, rfl, rfl⟩

/-- C4: with the reset flag set, or with no internal buffer allocated,
`get_state()` on a KVCache state returns the empty tensor shaped by the
static form of the external descriptor — the reorder/dequantization branch
is not taken and nothing is copied from the stored history. -/
theorem kv_get_state_reset_or_unallocated_empty (st : VariableStateKVcache)
    (h : st.reset_state_flag = true ∨ st.m_internal_mem = none) :
    st.get_state = KVGetResult.empty (to_static st.external_dims) := by
  rcases h with h | h
  · cases hmem : st.m_internal_mem with
    | none =>
      cases hbt : st.m_hidden_state <;>
        simp [VariableStateKVcache.get_state, hmem, hbt]
    | some pastkv =>
      cases hbt : st.m_hidden_state <;>
        simp [VariableStateKVcache.get_state, hmem, hbt, h]
  · cases hbt : st.m_hidden_state <;>
      simp [VariableStateKVcache.get_state, h, hbt]

/-- A KVCache state holding unquantized history data with the reset flag
set: used to exercise the empty branch of `get_state`. -/
def kvStateReset : VariableStateKVcache :=
  { external_dims := [none, some 2, some 4, some 8]
    internal_prec_u8 := false
    m_quant_by_channel := false
    m_group_size := 8
    m_internal_mem := some ⟨1, 2, 4, 8, false, fun i => (i : ℚ)⟩
    m_hidden_state := some ⟨2, 1, fun _ => 0⟩
    m_scale_zp_dims := []
    m_scale_zp := fun _ => 0
    m_internal_mem_max_size := 64
    m_hidden_state_max_size := 2
    reset_state_flag := true }

/-- Witness for C4: a state with allocated buffers but the reset flag set
returns the `[0, 2, 4, 8]`-shaped empty tensor. -/
theorem kv_get_state_reset_empty_witness :
    kvStateReset.get_state = KVGetResult.empty [0, 2, 4, 8] :=
  kv_get_state_reset_or_unallocated_empty kvStateReset (Or.inl rfl)

/-- C10: `get_state()` also returns the empty static-shaped tensor when the
beam-table buffer has not been assigned, even though the internal cache
buffer exists and holds data and the reset flag is clear. -/
theorem kv_get_state_no_beam_table_empty (st : VariableStateKVcache)
    (pastkv : KVStored)
    (hmem : st.m_internal_mem = some pastkv)
    (hbt : st.m_hidden_state = none)
    (hflag : st.reset_state_flag = false) :
    st.get_state = KVGetResult.empty (to_static st.external_dims) := by
  simp [VariableStateKVcache.get_state, hmem, hbt]

/-- A KVCache state with an allocated, data-holding internal buffer, a clear
reset flag, and no beam table assigned. -/
def kvStateNoBeam : VariableStateKVcache :=
  { external_dims := [none, some 2, some 4, some 8]
    internal_prec_u8 := false
    m_quant_by_channel := false
    m_group_size := 8
    m_internal_mem := some ⟨1, 2, 4, 8, false, fun i => (i : ℚ)⟩
    m_hidden_state := none
    m_scale_zp_dims := []
    m_scale_zp := fun _ => 0
    m_internal_mem_max_size := 64
    m_hidden_state_max_size := 0
    reset_state_flag := false }

/-- Witness for C10 at a concrete state whose internal buffer exists and
holds data. -/
theorem kv_get_state_no_beam_table_empty_witness :
    kvStateNoBeam.get_state = KVGetResult.empty [0, 2, 4, 8] :=
  kv_get_state_no_beam_table_empty kvStateNoBeam
    ⟨1, 2, 4, 8, false, fun i => (i : ℚ)⟩ rfl rfl rfl

/-- C1: for a KVCache state with an allocated buffer, an assigned beam
table and a cleared reset flag, `get_state()` on unquantized storage
returns, at every in-range `(m, b, k, s)`, the physically stored element of
row `(m, b_kv, k)` with `b_kv = BeamTable[b][m]` — in particular, when
`BeamTable[b][m] ≠ b` the returned row is the stored row of batch `b_kv`,
not of batch `b`. -/
theorem kv_get_state_beam_indirection (st : VariableStateKVcache)
    (pastkv : KVStored) (bt : BeamTable)
    (hmem : st.m_internal_mem = some pastkv)
    (hbt : st.m_hidden_state = some bt)
    (hflag : st.reset_state_flag = false)
    (hq : pastkv.precIsU8 = false)
    (m b k s : ℕ)
    (hm : m < pastkv.L) (hb : b < pastkv.B) (hk : k < pastkv.H)
    (hs : s < pastkv.S) :
    ∃ buf, st.get_state = KVGetResult.full pastkv.L pastkv.B pastkv.H pastkv.S buf ∧
      buf (lindex pastkv.B pastkv.H pastkv.S m b k s) =
        pastkv.raw (lindex pastkv.B pastkv.H pastkv.S m ((bt.at2 b m).toNat) k s) := by
  refine ⟨kv_get_buf st pastkv bt, ?_, ?_⟩
  · simp [VariableStateKVcache.get_state, hmem, hbt, hflag]
  · simp only [kv_get_buf, hq, Bool.false_eq_true, if_false]
    rw [rowWrites_apply pastkv.L pastkv.B pastkv.H pastkv.S
      (kv_get_plain_val pastkv bt) (fun _ => 0) m b k s hm hb hk hs]
    rfl

/-- An unquantized stored KV tensor with dims `[1, 2, 1, 1]` whose two rows
hold the values 10 (batch 0) and 20 (batch 1). -/
def kvStoredTwoBatches : KVStored :=
  ⟨1, 2, 1, 1, false, fun i => if i = 0 then 10 else 20⟩

/-- A beam table over `[B, L] = [2, 1]` that maps batch 0 to physical batch
1 and batch 1 to physical batch 0 — a genuine beam reordering. -/
def kvBeamSwap : BeamTable :=
  ⟨2, 1, fun i => if i = 0 then 1 else 0⟩

/-- A KVCache state holding `kvStoredTwoBatches` under `kvBeamSwap` with a
clear reset flag. -/
def kvStateSwap : VariableStateKVcache :=
  { external_dims := [none, some 2, some 1, some 1]
    internal_prec_u8 := false
    m_quant_by_channel := false
    m_group_size := 1
    m_internal_mem := some kvStoredTwoBatches
    m_hidden_state := some kvBeamSwap
    m_scale_zp_dims := []
    m_scale_zp := fun _ => 0
    m_internal_mem_max_size := 2
    m_hidden_state_max_size := 2
    reset_state_flag := false }

/-- Witness for C1: with `BeamTable[0][0] = 1 ≠ 0`, the output row of batch
0 is the stored row of physical batch 1. -/
theorem kv_get_state_beam_indirection_witness :
    ∃ buf, kvStateSwap.get_state = KVGetResult.full 1 2 1 1 buf ∧
      buf (lindex 2 1 1 0 0 0 0) =
        kvStoredTwoBatches.raw
          (lindex 2 1 1 0 ((kvBeamSwap.at2 0 0).toNat) 0 0) :=
  kv_get_state_beam_indirection kvStateSwap kvStoredTwoBatches kvBeamSwap
    rfl rfl rfl rfl 0 0 0 0 (by decide) (by decide) (by decide) (by decide)

/-- C3: immediately after any `set_state(T)` on a KVCache state, where `T`
has internal-layout dims `[L, B, H, S]`, the beam table is a freshly built
int32 matrix of shape `[B, L]` holding the identity mapping:
`BeamTable[b][l] = b` for every `b < B` and `l < L`. -/
theorem kv_set_state_identity_beam (st : VariableStateKVcache)
    (T : InputTensor) (b l : ℕ) (hb : b < T.B) (hl : l < T.L) :
    ∃ bt : BeamTable, (st.set_state T).m_hidden_state = some bt ∧
      bt.sizeB = T.B ∧ bt.sizeL = T.L ∧ bt.at2 b l = ((b : ℕ) : ℤ) := by
  refine ⟨⟨T.B, T.L, beam_table_fill T.B T.L⟩, ?_, rfl, rfl, ?_⟩
  · simp [VariableStateKVcache.set_state, VariableStateKVcache.set_state_impl]
  · exact beam_table_fill_apply T.B T.L b l hb hl

/-- A fresh KVCache state (as produced by the constructor) with unquantized
internal precision. -/
def kvStateFresh : VariableStateKVcache :=
  { external_dims := [none, some 3, some 1, some 1]
    internal_prec_u8 := false
    m_quant_by_channel := false
    m_group_size := 1
    m_internal_mem := none
    m_hidden_state := none
    m_scale_zp_dims := []
    m_scale_zp := fun _ => 0
    m_internal_mem_max_size := 0
    m_hidden_state_max_size := 0
    reset_state_flag := true }

/-- A concrete `[L, B, H, S] = [2, 3, 1, 1]` input tensor. -/
def kvInputT : InputTensor := ⟨2, 3, 1, 1, fun m b _ _ => (m : ℚ) + b⟩

/-- Witness for C3 at `(b, l) = (2, 1)` of a `[2, 3, 1, 1]` input. -/
theorem kv_set_state_identity_beam_witness :
    ∃ bt : BeamTable, (kvStateFresh.set_state kvInputT).m_hidden_state = some bt ∧
      bt.sizeB = 3 ∧ bt.sizeL = 2 ∧ bt.at2 2 1 = ((2 : ℕ) : ℤ) :=
  kv_set_state_identity_beam kvStateFresh kvInputT 2 1 (by decide) (by decide)

/-- A lane inside one of the `S / gs` by-group chunks lies strictly below
`(S / gs) * gs`, hence below `S`. -/
theorem group_lane_lt (S gs g i : ℕ) (hg : g < S / gs) (hi : i < gs) :
    g * gs + i < S / gs * gs ∧ g * gs + i < S := by
  have h2 : (g + 1) * gs ≤ S / gs * gs := Nat.mul_le_mul hg (Nat.le_refl gs)
  have h3 : S / gs * gs ≤ S := Nat.div_mul_le_self S gs
  have h4 : (g + 1) * gs = g * gs + gs := by ring
  omega

/-- Every write of the by-group quantization loop targets an offset of the
form `lindex(m, b, k, g * gs + i)` with all coordinates in range. -/
theorem by_group_code_writes_mem (T : InputTensor) (gs : ℕ) (p : ℕ × ℚ)
    (hp : p ∈ by_group_code_writes T gs) :
    ∃ b k m g i, b < T.B ∧ k < T.H ∧ m < T.L ∧ g < T.S / gs ∧ i < gs ∧
      p.1 = lindex T.B T.H T.S m b k (g * gs + i) := by
  simp only [by_group_code_writes, List.mem_flatMap, List.mem_map,
    List.mem_range] at hp
  obtain ⟨b, hb, k, hk, m, hm, g, hg, i, hi, he⟩ := hp
  exact ⟨b, k, m, g, i, hb, hk, hm, hg, hi, by rw [← he]⟩

/-- The scratch buffer of the by-group dequantization loop of `get_state`
holds its initial contents (0) at every lane at offset
`≥ (S / group_size) * group_size`: no group reaches the tail. -/
theorem kv_dequant_row_tail (st : VariableStateKVcache) (pastkv : KVStored)
    (bt : BeamTable) (m b k s : ℕ)
    (hs : pastkv.S / st.m_group_size * st.m_group_size ≤ s) :
    kv_dequant_row st pastkv bt m b k s = 0 := by
  simp only [kv_dequant_row]
  apply writeAll_not_mem
  intro p hp
  simp only [List.mem_flatMap, List.mem_map, List.mem_range] at hp
  obtain ⟨g, hg, i, hi, he⟩ := hp
  rw [← he]
  intro hc
  have h1 := (group_lane_lt pastkv.S st.m_group_size g i hg hi).1
  simp only at hc
  omega

/-- C9: in the default by-group quantization mode, `set_state` quantizes
and `get_state` dequantizes exactly the `S / group_size` complete groups of
each row; every trailing lane at offset `≥ (S / group_size) * group_size`
is never quantized, written or dequantized — the freshly allocated internal
buffer keeps its initial contents (0) there for every input tensor, and the
`get_state` output holds the scratch-buffer initial contents (0) there
regardless of the stored history — so value correctness of this mode
implicitly requires `group_size` to divide `S`. -/
theorem kv_by_group_tail_untouched :
    (∀ (st : VariableStateKVcache) (T : InputTensor),
      st.internal_prec_u8 = true → st.m_quant_by_channel = false →
      ∀ m b k s, m < T.L → b < T.B → k < T.H →
        T.S / st.m_group_size * st.m_group_size ≤ s → s < T.S →
        ∃ stored, (st.set_state T).m_internal_mem = some stored ∧
          stored.raw (lindex T.B T.H T.S m b k s) = 0) ∧
    (∀ (st : VariableStateKVcache) (pastkv : KVStored) (bt : BeamTable),
      st.m_internal_mem = some pastkv → st.m_hidden_state = some bt →
      st.reset_state_flag = false → pastkv.precIsU8 = true →
      st.m_quant_by_channel = false →
      ∀ m b k s, m < pastkv.L → b < pastkv.B → k < pastkv.H →
        pastkv.S / st.m_group_size * st.m_group_size ≤ s → s < pastkv.S →
        ∃ buf, st.get_state =
            KVGetResult.full pastkv.L pastkv.B pastkv.H pastkv.S buf ∧
          buf (lindex pastkv.B pastkv.H pastkv.S m b k s) = 0) := by
  constructor
  · intro st T hu8 hbc m b k s hm hb hk hslo hshi
    refine ⟨⟨T.L, T.B, T.H, T.S, true,
      writeAll (by_group_code_writes T st.m_group_size) fun _ => 0⟩, ?_, ?_⟩
    · simp [VariableStateKVcache.set_state, VariableStateKVcache.set_state_impl,
        hu8, hbc]
    · apply writeAll_not_mem
      intro p hp
      obtain ⟨b2, k2, m2, g, i, hb2, hk2, hm2, hg, hi, hkey⟩ :=
        by_group_code_writes_mem T st.m_group_size p hp
      rw [hkey]
      intro hc
      have hlane := group_lane_lt T.S st.m_group_size g i hg hi
      obtain ⟨_, _, _, e4⟩ :=
        lindex_inj T.B T.H T.S m2 b2 k2 (g * st.m_group_size + i) m b k s
          hb2 hk2 hlane.2 hb hk hshi hc
      omega
  · intro st pastkv bt hmem hbt hflag hq8 hbc m b k s hm hb hk hslo hshi
    refine ⟨kv_get_buf st pastkv bt, ?_, ?_⟩
    · simp [VariableStateKVcache.get_state, hmem, hbt, hflag]
    · simp only [kv_get_buf, hq8, hbc, if_true, Bool.false_eq_true, if_false]
      rw [rowWrites_apply pastkv.L pastkv.B pastkv.H pastkv.S
        (fun m2 b2 k2 s2 => kv_dequant_row st pastkv bt m2 b2 k2 s2)
        (fun _ => 0) m b k s hm hb hk hshi]
      exact kv_dequant_row_tail st pastkv bt m b k s hslo

/-- A fresh KVCache state with u8 internal precision, by-group quantization
and group size 2. -/
def c9SetState : VariableStateKVcache :=
  { external_dims := [none, some 1, some 1, some 3]
    internal_prec_u8 := true
    m_quant_by_channel := false
    m_group_size := 2
    m_internal_mem := none
    m_hidden_state := none
    m_scale_zp_dims := []
    m_scale_zp := fun _ => 0
    m_internal_mem_max_size := 0
    m_hidden_state_max_size := 0
    reset_state_flag := true }

/-- A `[1, 1, 1, 3]` input tensor whose innermost size 3 is not divisible
by the group size 2. -/
def c9T : InputTensor := ⟨1, 1, 1, 3, fun _ _ _ s => (s : ℚ) + 7⟩

/-- A stored u8 KV tensor of dims `[1, 1, 1, 3]` with nonzero codes. -/
def c9Stored : KVStored := ⟨1, 1, 1, 3, true, fun i => (i : ℚ) + 11⟩

/-- A KVCache state holding `c9Stored` under an identity beam table, in
by-group mode with group size 2. -/
def c9GetState : VariableStateKVcache :=
  { external_dims := [none, some 1, some 1, some 3]
    internal_prec_u8 := true
    m_quant_by_channel := false
    m_group_size := 2
    m_internal_mem := some c9Stored
    m_hidden_state := some ⟨1, 1, fun _ => 0⟩
    m_scale_zp_dims := [1, 1, 1, 3]
    m_scale_zp := fun i => (i : ℚ) + 1
    m_internal_mem_max_size := 3
    m_hidden_state_max_size := 1
    reset_state_flag := false }

/-- Witness for C9 at `S = 3`, `group_size = 2`: the trailing lane `s = 2`
is untouched by `set_state` and comes back as the scratch fill from
`get_state`. -/
theorem kv_by_group_tail_untouched_witness :
    (∃ stored, (c9SetState.set_state c9T).m_internal_mem = some stored ∧
      stored.raw (lindex 1 1 3 0 0 0 2) = 0) ∧
    (∃ buf, c9GetState.get_state = KVGetResult.full 1 1 1 3 buf ∧
      buf (lindex 1 1 3 0 0 0 2) = 0) :=
  ⟨kv_by_group_tail_untouched.1 c9SetState c9T rfl rfl 0 0 0 2
      (by decide) (by decide) (by decide) (by decide) (by decide),
   kv_by_group_tail_untouched.2 c9GetState c9Stored ⟨1, 1, fun _ => 0⟩
      rfl rfl rfl rfl rfl 0 0 0 2
      (by decide) (by decide) (by decide) (by decide) (by decide)⟩

/-- The failing input for the by-channel quantization branch: internal-order
dims `[L, B, H, S] = [4, 1, 1, 1]`, the value of step `m` being `m`. -/
def c2Input : InputTensor := ⟨4, 1, 1, 1, fun m _ _ _ => (m : ℚ)⟩

/-- A fresh KVCache state with u8 internal precision, by-channel
quantization and group size 2. -/
def c2State : VariableStateKVcache :=
  { external_dims := [none, some 1, some 1, some 1]
    internal_prec_u8 := true
    m_quant_by_channel := true
    m_group_size := 2
    m_internal_mem := none
    m_hidden_state := none
    m_scale_zp_dims := []
    m_scale_zp := fun _ => 0
    m_internal_mem_max_size := 0
    m_hidden_state_max_size := 0
    reset_state_flag := true }

/-- C2 (code bug): the by-channel branch of `set_state_impl` does split the
length dimension into `div_up(L0, group_size)` groups and size the
scale/zero-point table `[2 * groups, B, H, S]` as claimed, but the float
chunk it converts and quantizes for group `g` is NOT the chunk of steps
`g * group_size …`: the source reads at `external.ptr_v(valid_seq, b, h)`,
so every group converts the chunk starting at step
`valid_seq = min(group_size, L0 - g * group_size)`.  At the `[4, 1, 1, 1]`
input with step values `0, 1, 2, 3` and group size 2, group 0 quantizes the
chunk `[2, 3]` instead of `[0, 1]`, and the subsequent `get_state`
round-trip returns 2 for step 0 whose supplied value was 0. -/
theorem kv_by_channel_chunk_offset_bug :
    by_channel_read_start 2 4 0 = 2 ∧
    spec_by_channel_read_start 2 4 0 = 0 ∧
    by_channel_column c2Input (by_channel_read_start 2 4 0) 2 0 0 0 = [2, 3] ∧
    by_channel_column c2Input (spec_by_channel_read_start 2 4 0) 2 0 0 0 = [0, 1] ∧
    (c2State.set_state c2Input).m_scale_zp_dims = [4, 1, 1, 1] ∧
    (∃ stored, (c2State.set_state c2Input).m_internal_mem = some stored ∧
      stored.raw (lindex 1 1 1 0 0 0 0) =
        quant_code (by_channel_column c2Input 2 2 0 0 0) (c2Input.at4 2 0 0 0)) ∧
    (∃ buf, (c2State.set_state c2Input).get_state =
        KVGetResult.full 4 1 1 1 buf ∧
      buf (lindex 1 1 1 0 0 0 0) = 2 ∧
      c2Input.at4 0 0 0 0 = 0) := by
  refine ⟨rfl, rfl, by decide, by decide, by decide, ⟨_, rfl, rfl⟩, ?_⟩
  refine ⟨_, rfl, ?_, by decide⟩
  norm_num [kv_get_buf, c2State, c2Input, VariableStateKVcache.set_state,
    VariableStateKVcache.set_state_impl, VariableStateKVcache.get_state,
    rowWrites, writeAll, lindex, kv_get_by_channel_val, attn_dequant_val,
    BeamTable.at2, beam_table_fill, beamIdentityWrites, by_channel_szp_writes,
    by_channel_code_writes, by_channel_column, by_channel_read_start,
    quant_scale, quant_zp, quant_code, chunk_max, chunk_min, group_chunk,
    List.range_succ, Function.update, max_def, min_def, div_up]
